import Mathlib

/-!
Verification of the Polymarket CLOB client order-construction core
(`order_builder.go`, `signing.go`, `client.go`).

Modelling conventions:
* Go `float64` arithmetic is modelled by exact rationals (`ℚ`); Go `int`
  and `int64` by `ℤ`; Go byte slices by `List ℕ` with entries below 256;
  Go strings by `String`.
* External library primitives (go-ethereum keccak / ECDSA / hex utilities
  inputs, `crypto/hmac`, `crypto/sha256`, `crypto/rand`) are external to
  this repository, so the functions that call them take them as explicit
  abstract parameters, and every theorem quantifies over their behaviour.
* Go string-typed enums (`Side`, `TickSize`) are modelled as `String`
  constants, matching `Side("BUY")` etc. asserted by the repository tests.
-/

/-- Go `SideBuy = Side("BUY")`. -/
def SideBuy : String := "BUY"

/-- Go `SideSell = Side("SELL")`. -/
def SideSell : String := "SELL"

/-- Go `TickSize01 = TickSize("0.1")`. -/
def TickSize01 : String := "0.1"

/-- Go `TickSize001 = TickSize("0.01")`. -/
def TickSize001 : String := "0.01"

/-- Go `TickSize0001 = TickSize("0.001")`. -/
def TickSize0001 : String := "0.001"

/-- Go `TickSize00001 = TickSize("0.0001")`. -/
def TickSize00001 : String := "0.0001"

/-- `RoundConfig` from the package types: decimal-digit precisions for
price, size and amount (Go `int` fields). -/
structure RoundConfig where
  price : ℤ
  size : ℤ
  amount : ℤ
  deriving DecidableEq

/-- `getRoundConfig` from `order_builder.go`: a switch on the tick size with a
silent default of the 0.01 configuration. -/
def getRoundConfig (tickSize : String) : RoundConfig :=
  if tickSize = TickSize01 then ⟨1, 1, 1⟩
  else if tickSize = TickSize001 then ⟨2, 2, 2⟩
  else if tickSize = TickSize0001 then ⟨3, 3, 3⟩
  else if tickSize = TickSize00001 then ⟨4, 4, 4⟩
  else ⟨2, 2, 2⟩

/-- Semantics of Go `math.Round`: round to the nearest integer, ties away
from zero. -/
def goRound (x : ℚ) : ℤ :=
  if 0 ≤ x then ⌊x + 1 / 2⌋ else -⌊-x + 1 / 2⌋

/-- Semantics of Go `fmt.Sprintf` with the `%.0f` verb, as applied to an
exact value: round to the nearest integer with ties to even (Go formats
floats by correctly rounded decimal conversion, which resolves exact ties
to the even neighbour). -/
def goFmtF0 (x : ℚ) : ℤ :=
  if x - ⌊x⌋ < 1 / 2 then ⌊x⌋
  else if 1 / 2 < x - ⌊x⌋ then ⌊x⌋ + 1
  else if ⌊x⌋ % 2 = 0 then ⌊x⌋ else ⌊x⌋ + 1

/-- `roundAmount` from `order_builder.go`: multiply by `10^decimals`
(`math.Pow(10, float64(decimals))`), apply `math.Round`, divide back. -/
def roundAmount (amount : ℚ) (decimals : ℤ) : ℚ :=
  (goRound (amount * 10 ^ decimals) : ℚ) / 10 ^ decimals

/-- `calculateOrderAmounts` from `order_builder.go`: range-check the price,
round the two legs according to the side, scale by `1e6`, format each with
`%.0f`, read back with `big.Int.SetString` and print in decimal
(`big.Int.String`, which is `toString` on the exact integer). -/
def calculateOrderAmounts (price size : ℚ) (side : String)
    (roundConfig : RoundConfig) : Except String (String × String) :=
  if price ≤ 0 ∨ 1 < price then
    .error "price must be between 0 and 1"
  else if side = SideBuy then
    .ok (toString (goFmtF0 (roundAmount (price * size) roundConfig.amount * 1000000)),
         toString (goFmtF0 (roundAmount size roundConfig.size * 1000000)))
  else
    .ok (toString (goFmtF0 (roundAmount size roundConfig.size * 1000000)),
         toString (goFmtF0 (roundAmount (price * size) roundConfig.amount * 1000000)))

/-- The exclusive upper bound that `generateSalt` in `order_builder.go`
passes to `crypto/rand.Int` (the Go local is named `max`): `2^63 − 1`. -/
def saltBound : ℕ := 9223372036854775807

/-- Models `generateSalt` from `order_builder.go`. `rand.Int(rand.Reader,
max)` draws a uniform integer `n` with `0 ≤ n < max` (documented contract of
`crypto/rand.Int`, external to this repository); the draw is made an
explicit argument. On success the function returns `n.Int64()`, which is
exactly `n` because `n < 2^63`. -/
def generateSalt (n : ℕ) : ℤ := (n : ℤ)

/-- The set of values `generateSalt` can return on success: images of the
possible draws of `crypto/rand.Int`. -/
def saltPossible (s : ℤ) : Prop := ∃ n : ℕ, n < saltBound ∧ generateSalt n = s

/-- Truncation toward zero, as performed by Go `math.Mod`
(`math.Mod(x, y) = x - trunc(x/y)*y`). -/
def ratTrunc (q : ℚ) : ℤ := if 0 ≤ q then ⌊q⌋ else ⌈q⌉

/-- Semantics of Go `math.Mod`: remainder of `x/y` with the sign of `x`. -/
def goMod (x y : ℚ) : ℚ := x - y * (ratTrunc (x / y) : ℚ)

/-- Models `strconv.ParseFloat` as used by `ValidatePrice`, restricted to the
four enumerated `TickSize` constants (the only tick sizes the package
defines); other strings are treated as unparsable. The parsed `float64`
values are modelled as the exact decimal rationals. -/
def parseTickSize (s : String) : Option ℚ :=
  if s = TickSize01 then some (1 / 10)
  else if s = TickSize001 then some (1 / 100)
  else if s = TickSize0001 then some (1 / 1000)
  else if s = TickSize00001 then some (1 / 10000)
  else none

/-- `ValidatePrice` from `order_builder.go`: range check, parse the tick
size, then require the remainder of `price` modulo the tick size to be
within `tickSize/100` of `0` or of the tick size itself. -/
def ValidatePrice (price : ℚ) (tickSize : String) : Except String Unit :=
  if price ≤ 0 ∨ 1 < price then
    .error "price must be between 0 and 1"
  else
    match parseTickSize tickSize with
    | none => .error ("invalid tick size: " ++ tickSize)
    | some tickSizeFloat =>
      if tickSizeFloat / 100 < goMod price tickSizeFloat ∧
          tickSizeFloat / 100 < tickSizeFloat - goMod price tickSizeFloat then
        .error ("price must be a multiple of tick size " ++ tickSize)
      else
        .ok ()

/-- `getExchangeAddress` from `signing.go`: fixed per-chain table with a
silent mainnet default. -/
def getExchangeAddress (chainID : ℤ) : String :=
  if chainID = 137 then "0x4bFb41d5B3570DeFd03C39a9A4D8dE6Bd8B8982E"
  else if chainID = 80002 then "0xdFE02Eb6733538f8Ea35D585af8DE5958AD99E40"
  else "0x4bFb41d5B3570DeFd03C39a9A4D8dE6Bd8B8982E"

/-- The UTF-8 bytes of a Go string, as produced by `[]byte(s)`. -/
def strBytes (s : String) : List ℕ := s.toUTF8.toList.map (fun b => b.toNat)

/-- The base64url alphabet (RFC 4648 section 5), as used by Go
`base64.URLEncoding`. -/
def base64urlAlphabet : List Char :=
  "ABCDEFGHIJKLMNOPQRSTUVWXYZabcdefghijklmnopqrstuvwxyz0123456789-_".toList

/-- Character for a 6-bit group. -/
def base64urlChar (i : ℕ) : Char := base64urlAlphabet.getD i 'A'

/-- Go `base64.URLEncoding.EncodeToString`: standard base64 over the URL
alphabet, with `=` padding. -/
def base64urlEncode : List ℕ → String
  | [] => ""
  | [b1] =>
    String.mk [base64urlChar (b1 / 4), base64urlChar (b1 % 4 * 16)] ++ "=="
  | [b1, b2] =>
    String.mk [base64urlChar (b1 / 4), base64urlChar (b1 % 4 * 16 + b2 / 16),
      base64urlChar (b2 % 16 * 4)] ++ "="
  | b1 :: b2 :: b3 :: rest =>
    String.mk [base64urlChar (b1 / 4), base64urlChar (b1 % 4 * 16 + b2 / 16),
      base64urlChar (b2 % 16 * 4 + b3 / 64), base64urlChar (b3 % 64)] ++
      base64urlEncode rest

/-- Go `strings.TrimRight(s, "=")`: remove every trailing `=`. -/
def trimRightEq (s : String) : String :=
  String.mk ((s.toList.reverse.dropWhile (fun c => c == '=')).reverse)

/-- `BuildPolyHmacSignature` from `signing.go`, parametrized by the
HMAC-SHA256 primitive `hmacSha256 key msg` (Go `crypto/hmac` with
`crypto/sha256`, external to this repository, modelled as an abstract byte
function). The message is `fmt.Sprintf` of the decimal timestamp, method,
request path and body with no delimiters. -/
def BuildPolyHmacSignature (hmacSha256 : List ℕ → List ℕ → List ℕ)
    (secret : String) (timestamp : ℤ) (method requestPath body : String) :
    Except String String :=
  let message := toString timestamp ++ method ++ requestPath ++ body
  let hash := hmacSha256 (strBytes secret) (strBytes message)
  let signature := base64urlEncode hash
  .ok (trimRightEq signature)

/-- Hex digit character. -/
def hexDigit (n : ℕ) : Char := "0123456789abcdef".toList.getD n '0'

/-- Go `hexutil.Encode`: `0x` followed by two lowercase hex digits per
byte. -/
def hexEncodeBytes (bs : List ℕ) : String :=
  "0x" ++ String.mk (bs.map (fun b => [hexDigit (b / 16), hexDigit (b % 16)])).flatten

/-- The recovery-byte normalization in `signing.go`: `if signature[64] < 27
then signature[64] += 27`. `crypto.Sign` always returns 65 bytes, so index 64 is
in range; a shorter list (unreachable in the source) is returned
unchanged. -/
def adjustV (signature : List ℕ) : List ℕ :=
  match signature.get? 64 with
  | some v => if v < 27 then signature.set 64 (v + 27) else signature
  | none => signature

/-- Error wrapping as done by `fmt.Errorf("...: %w", err)`. -/
def wrapErr {α : Type} (msg : String) : Except String α → Except String α
  | .ok a => .ok a
  | .error e => .error (msg ++ e)

/-- `BuildClobEip712Signature` from `signing.go`, parametrized by the
go-ethereum primitives it calls (all external to this repository):
`hexDecode` for `hexutil.Decode`, `toECDSA` for `crypto.ToECDSA` producing
an opaque key of type `K`, the two `typedData.HashStruct` results for the
fixed auth domain and message, `keccak` for `crypto.Keccak256`, and `sign`
for `crypto.Sign`. The function hashes `0x19 0x01 || domainSeparator ||
messageHash`, signs, normalizes the recovery byte and hex-encodes. -/
def BuildClobEip712Signature {K : Type}
    (hexDecode : String → Except String (List ℕ))
    (toECDSA : List ℕ → Except String K)
    (hashStructDomain hashStructMessage : Except String (List ℕ))
    (keccak : List ℕ → List ℕ)
    (sign : K → List ℕ → Except String (List ℕ))
    (privateKey : String) : Except String String := do
  let privateKeyBytes ← wrapErr "invalid private key: " (hexDecode privateKey)
  let key ← wrapErr "failed to parse private key: " (toECDSA privateKeyBytes)
  let domainSeparator ← wrapErr "failed to hash domain: " hashStructDomain
  let messageHash ← wrapErr "failed to hash message: " hashStructMessage
  let rawData := [0x19, 0x01] ++ domainSeparator ++ messageHash
  let hash := keccak rawData
  let signature ← wrapErr "failed to sign: " (sign key hash)
  pure (hexEncodeBytes (adjustV signature))

/-- `BuildOrderSignature` from `signing.go`, parametrized exactly like
`BuildClobEip712Signature` (the two functions share their tail: final
keccak of `0x19 0x01 || domainSeparator || messageHash`, ECDSA sign,
recovery-byte normalization, hex encoding); the typed data here is the
order schema, again abstracted into the two `HashStruct` results. -/
def BuildOrderSignature {K : Type}
    (hexDecode : String → Except String (List ℕ))
    (toECDSA : List ℕ → Except String K)
    (hashStructDomain hashStructMessage : Except String (List ℕ))
    (keccak : List ℕ → List ℕ)
    (sign : K → List ℕ → Except String (List ℕ))
    (privateKey : String) : Except String String := do
  let privateKeyBytes ← wrapErr "invalid private key: " (hexDecode privateKey)
  let key ← wrapErr "failed to parse private key: " (toECDSA privateKeyBytes)
  let domainSeparator ← wrapErr "failed to hash domain: " hashStructDomain
  let messageHash ← wrapErr "failed to hash message: " hashStructMessage
  let rawData := [0x19, 0x01] ++ domainSeparator ++ messageHash
  let hash := keccak rawData
  let signature ← wrapErr "failed to sign: " (sign key hash)
  pure (hexEncodeBytes (adjustV signature))

/-- `UserOrder` from the package types: user-facing order request with
optional (Go pointer) fields. -/
structure UserOrder where
  tokenID : String
  price : ℚ
  size : ℚ
  side : String
  feeRateBps : Option ℤ
  nonce : Option ℤ
  expiration : Option ℤ
  taker : Option String

/-- `CreateOrderOptions` from the package types (only `TickSize` is read by
the modelled code paths). -/
structure CreateOrderOptions where
  tickSize : String

/-- `SignedOrder` from the package types. -/
structure SignedOrder where
  salt : ℤ
  maker : String
  signer : String
  taker : String
  tokenID : String
  makerAmount : String
  takerAmount : String
  expiration : String
  nonce : String
  feeRateBps : String
  side : String
  signatureType : ℤ
  signature : String

/-- `OrderBuilder.BuildOrder` from `order_builder.go`, parametrized by its
fallible external steps: `getAddress` for `GetAddressFromPrivateKey` on the
builder key, `genSalt` for `generateSalt` (the `crypto/rand` draw), and
`signOrder` for `BuildOrderSignature` on the assembled order. Everything
else is the source logic: maker/funder resolution, `getRoundConfig`,
`calculateOrderAmounts`, field defaults, assembly and signing. -/
def BuildOrder (getAddress : Except String String)
    (genSalt : Except String ℤ)
    (signOrder : SignedOrder → Except String String)
    (funderAddress : Option String) (signatureType : ℤ)
    (userOrder : UserOrder) (options : CreateOrderOptions) :
    Except String SignedOrder := do
  let address ← wrapErr "failed to get address: " getAddress
  let maker := match funderAddress with
    | some f => f
    | none => address
  let roundConfig := getRoundConfig options.tickSize
  let amounts ← wrapErr "failed to calculate amounts: "
    (calculateOrderAmounts userOrder.price userOrder.size userOrder.side roundConfig)
  let salt ← wrapErr "failed to generate salt: " genSalt
  let taker := match userOrder.taker with
    | some t => t
    | none => "0x0000000000000000000000000000000000000000"
  let nonce := match userOrder.nonce with
    | some n => toString n
    | none => "0"
  let expiration := match userOrder.expiration with
    | some e => toString e
    | none => "0"
  let feeRateBps := match userOrder.feeRateBps with
    | some f => toString f
    | none => "0"
  let order : SignedOrder :=
    { salt := salt, maker := maker, signer := address, taker := taker,
      tokenID := userOrder.tokenID, makerAmount := amounts.1,
      takerAmount := amounts.2, expiration := expiration, nonce := nonce,
      feeRateBps := feeRateBps, side := userOrder.side,
      signatureType := signatureType, signature := "" }
  let signature ← wrapErr "failed to sign order: " (signOrder order)
  pure { order with signature := signature }

/-- `ClobClient.CreateOrder` from `client.go`: run `ValidatePrice` on the
user price and tick size, propagate its error, otherwise delegate to
`OrderBuilder.BuildOrder` (same abstract external steps as `BuildOrder`). -/
def CreateOrder (getAddress : Except String String)
    (genSalt : Except String ℤ)
    (signOrder : SignedOrder → Except String String)
    (funderAddress : Option String) (signatureType : ℤ)
    (userOrder : UserOrder) (options : CreateOrderOptions) :
    Except String SignedOrder :=
  match ValidatePrice userOrder.price options.tickSize with
  | .error e => .error e
  | .ok _ =>
    BuildOrder getAddress genSalt signOrder funderAddress signatureType
      userOrder options

/-! ## Helper lemmas -/

lemma head?_dropWhile_eq_false {p : Char → Bool} (cs : List Char) (c : Char)
    (h : (cs.dropWhile p).head? = some c) : p c = false := by
  induction cs with
  | nil => simp [List.dropWhile] at h
  | cons a as ih =>
    rw [List.dropWhile_cons] at h
    by_cases ha : p a
    · rw [if_pos ha] at h
      exact ih h
    · rw [if_neg ha] at h
      simp only [List.head?_cons, Option.some.injEq] at h
      subst h
      exact Bool.not_eq_true _ ▸ Bool.of_not_eq_true ha

lemma trimRightEq_getLast_ne (s : String) (c : Char)
    (h : (trimRightEq s).toList.getLast? = some c) : c ≠ '=' := by
  have hl : (trimRightEq s).toList =
      (s.toList.reverse.dropWhile (fun x => x == '=')).reverse := rfl
  rw [hl, List.getLast?_reverse] at h
  have := head?_dropWhile_eq_false _ _ h
  simpa using this

/-! ## Claim theorems -/

/-- C7: `getExchangeAddress` resolves from a fixed per-chain table and is
total: chain 80002 maps to the Amoy address, and chain 137 — like every
chain id other than 80002 — maps to the default mainnet address (unknown
chains silently fall back instead of failing). -/
theorem C7_getExchangeAddress_table :
    getExchangeAddress 80002 = "0xdFE02Eb6733538f8Ea35D585af8DE5958AD99E40" ∧
    getExchangeAddress 137 = "0x4bFb41d5B3570DeFd03C39a9A4D8dE6Bd8B8982E" ∧
    ∀ chainID : ℤ, chainID ≠ 80002 →
      getExchangeAddress chainID = "0x4bFb41d5B3570DeFd03C39a9A4D8dE6Bd8B8982E" := by
  refine ⟨?_, ?_, ?_⟩
  · rw [getExchangeAddress, if_neg (by decide), if_pos rfl]
  · rw [getExchangeAddress, if_pos rfl]
  · intro chainID hc
    rw [getExchangeAddress]
    by_cases h137 : chainID = 137
    · rw [if_pos h137]
    · rw [if_neg h137, if_neg hc]

/-- Witness for C7: an unknown chain id (1) falls back to the mainnet
address. -/
theorem C7_getExchangeAddress_table_witness :
    getExchangeAddress 1 = "0x4bFb41d5B3570DeFd03C39a9A4D8dE6Bd8B8982E" :=
  C7_getExchangeAddress_table.2.2 1 (by decide)

/-- C9: `getRoundConfig` is total over arbitrary tick-size strings: the four
enumerated tick sizes map to the uniform precision triples 1, 2, 3, 4, and
every other string silently maps to the default 0.01 configuration. -/
theorem C9_getRoundConfig_total :
    getRoundConfig TickSize01 = ⟨1, 1, 1⟩ ∧
    getRoundConfig TickSize001 = ⟨2, 2, 2⟩ ∧
    getRoundConfig TickSize0001 = ⟨3, 3, 3⟩ ∧
    getRoundConfig TickSize00001 = ⟨4, 4, 4⟩ ∧
    ∀ ts : String, ts ≠ TickSize01 → ts ≠ TickSize001 → ts ≠ TickSize0001 →
      ts ≠ TickSize00001 → getRoundConfig ts = ⟨2, 2, 2⟩ := by
  refine ⟨rfl, rfl, rfl, rfl, ?_⟩
  intro ts h1 h2 h3 h4
  rw [getRoundConfig, if_neg h1, if_neg h2, if_neg h3, if_neg h4]

/-- Witness for C9: a non-enumerated tick size string gets the default
configuration. -/
theorem C9_getRoundConfig_total_witness :
    getRoundConfig "0.05" = ⟨2, 2, 2⟩ :=
  C9_getRoundConfig_total.2.2.2.2 "0.05" (by decide) (by decide) (by decide)
    (by decide)

/-- C1: the claim asserts the salt lies in [1, 2^63−1] with 2^63−1
attainable; on the code, `rand.Int(rand.Reader, max)` draws uniformly from
[0, max) with max = 2^63−1, so 0 is a possible salt (the repository test
`TestGenerateSalt` asserts salt > 0, which such a draw violates) and
2^63−1 is never returned; every possible salt lies in [0, 2^63−2]. -/
theorem C1_generateSalt_range_violation :
    saltPossible 0 ∧ ¬ saltPossible ((saltBound : ℕ) : ℤ) ∧ generateSalt 0 = 0 ∧
    (∀ s : ℤ, saltPossible s → 0 ≤ s ∧ s < ((saltBound : ℕ) : ℤ)) := by
  refine ⟨⟨0, by decide, rfl⟩, ?_, rfl, ?_⟩
  · rintro ⟨n, hn, he⟩
    rw [generateSalt] at he
    have hn2 : n = saltBound := by exact_mod_cast he
    omega
  · rintro s ⟨n, hn, he⟩
    rw [generateSalt] at he
    subst he
    exact ⟨Int.natCast_nonneg n, by exact_mod_cast hn⟩

/-- C2: `BuildPolyHmacSignature` is total (no failure mode) and returns the
base64url encoding, stripped of trailing padding, of the HMAC-SHA256 of the
undelimited concatenation of decimal timestamp, method, request path and
body, keyed by the secret bytes; the returned string never ends in `=`. -/
theorem C2_BuildPolyHmacSignature_spec (hmacSha256 : List ℕ → List ℕ → List ℕ)
    (secret : String) (timestamp : ℤ) (method requestPath body : String) :
    BuildPolyHmacSignature hmacSha256 secret timestamp method requestPath body =
      .ok (trimRightEq (base64urlEncode (hmacSha256 (strBytes secret)
        (strBytes (toString timestamp ++ method ++ requestPath ++ body))))) ∧
    ∀ c : Char,
      (trimRightEq (base64urlEncode (hmacSha256 (strBytes secret)
        (strBytes (toString timestamp ++ method ++ requestPath ++ body))))).toList.getLast? =
        some c → c ≠ '=' :=
  ⟨rfl, fun c h => trimRightEq_getLast_ne _ c h⟩

/-- Witness for C2: with an HMAC primitive returning bytes [0, 1], message
"0POST/orderbody", the signature is the padding-stripped base64url "AAE". -/
theorem C2_BuildPolyHmacSignature_spec_witness :
    BuildPolyHmacSignature (fun _ _ => [0, 1]) "secret" 0 "POST" "/order" "body" =
      .ok "AAE" :=
  (C2_BuildPolyHmacSignature_spec (fun _ _ => [0, 1]) "secret" 0 "POST" "/order"
    "body").1.trans (by rfl)

lemma floor_half : ⌊(1 / 2 : ℚ)⌋ = 0 :=
  Int.floor_eq_iff.mpr (by norm_num)

lemma goRound_intCast (n : ℤ) : goRound ((n : ℚ)) = n := by
  rw [goRound]
  by_cases h : (0 : ℚ) ≤ (n : ℚ)
  · rw [if_pos h, Int.floor_int_add, floor_half, add_zero]
  · rw [if_neg h, ← Int.cast_neg, Int.floor_int_add, floor_half, add_zero,
      neg_neg]

lemma goFmtF0_intCast (n : ℤ) : goFmtF0 ((n : ℚ)) = n := by
  rw [goFmtF0, Int.floor_intCast, if_pos (by rw [sub_self]; norm_num)]

lemma roundAmount_of_intCast (x : ℚ) (d n : ℤ) (h : x * 10 ^ d = (n : ℚ)) :
    roundAmount x d = (n : ℚ) / 10 ^ d := by
  rw [roundAmount, h, goRound_intCast]

/-- C6: `roundAmount` is idempotent, equals division of the
round-half-away-from-zero integer by the scale, and the rounding primitive
`goRound` rounds to within one half with exact ties going away from zero
(up for nonnegative arguments, down for negative ones). -/
theorem C6_roundAmount_idempotent (x : ℚ) (d : ℤ) :
    roundAmount (roundAmount x d) d = roundAmount x d ∧
    roundAmount x d = (goRound (x * 10 ^ d) : ℚ) / 10 ^ d ∧
    (∀ y : ℚ, |(goRound y : ℚ) - y| ≤ 1 / 2) ∧
    (∀ y : ℚ, Int.fract y = 1 / 2 → 0 ≤ y → goRound y = ⌊y⌋ + 1) ∧
    (∀ y : ℚ, Int.fract y = 1 / 2 → y < 0 → goRound y = ⌊y⌋) := by
  have hpow : (10 : ℚ) ^ d ≠ 0 := zpow_ne_zero d (by norm_num)
  refine ⟨?_, rfl, ?_, ?_, ?_⟩
  · have hmul : roundAmount x d * 10 ^ d = ((goRound (x * 10 ^ d) : ℤ) : ℚ) := by
      rw [roundAmount, div_mul_cancel₀ _ hpow]
    rw [roundAmount, hmul, goRound_intCast]
    rfl
  · intro y
    rw [goRound]
    by_cases h : 0 ≤ y
    · rw [if_pos h]
      have h1 := Int.floor_le (y + 1 / 2)
      have h2 := Int.sub_one_lt_floor (y + 1 / 2)
      rw [abs_le]
      constructor <;> linarith
    · rw [if_neg h]
      have h1 := Int.floor_le (-y + 1 / 2)
      have h2 := Int.sub_one_lt_floor (-y + 1 / 2)
      rw [abs_le]
      push_cast
      constructor <;> linarith
  · intro y hf hy
    rw [Int.fract] at hf
    rw [goRound, if_pos hy]
    have he : y + 1 / 2 = ((⌊y⌋ + 1 : ℤ) : ℚ) := by push_cast; linarith
    rw [he, Int.floor_intCast]
  · intro y hf hy
    rw [Int.fract] at hf
    rw [goRound, if_neg (not_le.mpr hy)]
    have he : -y + 1 / 2 = ((-⌊y⌋ : ℤ) : ℚ) := by push_cast; linarith
    rw [he, Int.floor_intCast, neg_neg]

/-- Witness for C6: rounding 5/2 to zero decimals gives 3 (tie away from
zero), and re-rounding is a no-op. -/
theorem C6_roundAmount_idempotent_witness :
    roundAmount (roundAmount (5 / 2) 0) 0 = roundAmount (5 / 2) 0 ∧
    goRound ((5 : ℚ) / 2) = 3 := by
  have h := C6_roundAmount_idempotent (5 / 2 : ℚ) 0
  have hfl : ⌊(5 : ℚ) / 2⌋ = 2 := Int.floor_eq_iff.mpr (by norm_num)
  have hfr : Int.fract ((5 : ℚ) / 2) = 1 / 2 := by
    rw [Int.fract, hfl]; norm_num
  exact ⟨h.1, by rw [h.2.2.2.1 (5 / 2) hfr (by norm_num), hfl]; norm_num⟩

/-- C4: on price 0.52, size 10, precision triple 2 (tick size 0.01), BUY
yields maker "5200000" and taker "10000000" in base units, and SELL the
same two values swapped, with no error. -/
theorem C4_calculateOrderAmounts_example :
    calculateOrderAmounts (52 / 100) 10 SideBuy ⟨2, 2, 2⟩ =
      .ok ("5200000", "10000000") ∧
    calculateOrderAmounts (52 / 100) 10 SideSell ⟨2, 2, 2⟩ =
      .ok ("10000000", "5200000") := by
  have hcond : ¬((52 : ℚ) / 100 ≤ 0 ∨ 1 < (52 : ℚ) / 100) := by norm_num
  have hM : goFmtF0 (roundAmount ((52 : ℚ) / 100 * 10) 2 * 1000000) = 5200000 := by
    rw [roundAmount_of_intCast _ _ 520 (by push_cast; norm_num)]
    have he : ((520 : ℤ) : ℚ) / 10 ^ (2 : ℤ) * 1000000 = ((5200000 : ℤ) : ℚ) := by
      push_cast; norm_num
    rw [he, goFmtF0_intCast]
  have hT : goFmtF0 (roundAmount (10 : ℚ) 2 * 1000000) = 10000000 := by
    rw [roundAmount_of_intCast _ _ 1000 (by push_cast; norm_num)]
    have he : ((1000 : ℤ) : ℚ) / 10 ^ (2 : ℤ) * 1000000 = ((10000000 : ℤ) : ℚ) := by
      push_cast; norm_num
    rw [he, goFmtF0_intCast]
  constructor
  · unfold calculateOrderAmounts
    rw [if_neg hcond, if_pos rfl]
    dsimp only
    rw [hM, hT]
    rfl
  · unfold calculateOrderAmounts
    rw [if_neg hcond, if_neg (by decide : ¬(SideSell = SideBuy))]
    dsimp only
    rw [hM, hT]
    rfl

/-- C5: for any in-range price, any size and any round config, the BUY legs
are exactly the SELL legs with maker and taker exchanged. -/
theorem C5_buy_sell_swap (price size : ℚ) (cfg : RoundConfig) (m t : String)
    (h1 : 0 < price) (h2 : price ≤ 1) :
    calculateOrderAmounts price size SideBuy cfg = .ok (m, t) ↔
    calculateOrderAmounts price size SideSell cfg = .ok (t, m) := by
  have hcond : ¬(price ≤ 0 ∨ 1 < price) := by
    push_neg
    exact ⟨h1, h2⟩
  unfold calculateOrderAmounts
  rw [if_neg hcond, if_neg hcond, if_pos rfl,
    if_neg (by decide : ¬(SideSell = SideBuy))]
  constructor
  · intro h
    simp only [Except.ok.injEq, Prod.mk.injEq] at h ⊢
    exact ⟨h.2, h.1⟩
  · intro h
    simp only [Except.ok.injEq, Prod.mk.injEq] at h ⊢
    exact ⟨h.2, h.1⟩

/-- Witness for C5: at price 1, size 10, the BUY and SELL results are each
the other's swap. -/
theorem C5_buy_sell_swap_witness :
    (calculateOrderAmounts 1 10 SideBuy ⟨2, 2, 2⟩ =
      .ok ("10000000", "10000000")) ↔
    (calculateOrderAmounts 1 10 SideSell ⟨2, 2, 2⟩ =
      .ok ("10000000", "10000000")) :=
  C5_buy_sell_swap 1 10 ⟨2, 2, 2⟩ "10000000" "10000000" one_pos (le_refl 1)

lemma parseTickSize_pos (ts : String) (τ : ℚ) (h : parseTickSize ts = some τ) :
    0 < τ := by
  rw [parseTickSize] at h
  split_ifs at h
  all_goals rw [Option.some.injEq] at h
  all_goals subst h
  all_goals norm_num

lemma goMod_pos_eq (price τ : ℚ) (hp : 0 < price) (hτ : 0 < τ) :
    goMod price τ = τ * Int.fract (price / τ) := by
  rw [goMod, ratTrunc, if_pos (le_of_lt (div_pos hp hτ)), Int.fract, mul_sub,
    mul_div_cancel₀ _ (ne_of_gt hτ)]

lemma goMod_bounds (price τ : ℚ) (hp : 0 < price) (hτ : 0 < τ) :
    0 ≤ goMod price τ ∧ goMod price τ < τ := by
  rw [goMod_pos_eq price τ hp hτ]
  refine ⟨mul_nonneg hτ.le (Int.fract_nonneg _), ?_⟩
  calc τ * Int.fract (price / τ) < τ * 1 :=
        (mul_lt_mul_left hτ).mpr (Int.fract_lt_one _)
    _ = τ := mul_one τ

lemma goMod_decomp (price τ : ℚ) (hp : 0 < price) (hτ : 0 < τ) :
    price = τ * ⌊price / τ⌋ + goMod price τ := by
  rw [goMod, ratTrunc, if_pos (le_of_lt (div_pos hp hτ))]
  ring

lemma near_multiple (price τ ε : ℚ) (hp : 0 < price) (hτ : 0 < τ)
    (hε : 0 ≤ ε) (hετ : ε < τ) :
    (∃ k : ℤ, |price - (k : ℚ) * τ| ≤ ε) ↔
      (goMod price τ ≤ ε ∨ τ - goMod price τ ≤ ε) := by
  obtain ⟨hr0, hrτ⟩ := goMod_bounds price τ hp hτ
  have hdec := goMod_decomp price τ hp hτ
  constructor
  · rintro ⟨k, hk⟩
    rw [abs_le] at hk
    have hpk : price - (k : ℚ) * τ =
        ((⌊price / τ⌋ - k : ℤ) : ℚ) * τ + goMod price τ := by
      push_cast
      linarith [hdec]
    rcases (by omega :
        ⌊price / τ⌋ - k ≤ -2 ∨ ⌊price / τ⌋ - k = -1 ∨
        ⌊price / τ⌋ - k = 0 ∨ 1 ≤ ⌊price / τ⌋ - k) with hc | hc | hc | hc
    · exfalso
      have hmq : ((⌊price / τ⌋ - k : ℤ) : ℚ) ≤ -2 := by exact_mod_cast hc
      have hprod : ((⌊price / τ⌋ - k : ℤ) : ℚ) * τ ≤ -2 * τ :=
        mul_le_mul_of_nonneg_right hmq hτ.le
      linarith [hk.1]
    · right
      rw [hc] at hpk
      push_cast at hpk
      linarith [hk.1]
    · left
      rw [hc] at hpk
      push_cast at hpk
      linarith [hk.2]
    · exfalso
      have hmq : (1 : ℚ) ≤ ((⌊price / τ⌋ - k : ℤ) : ℚ) := by exact_mod_cast hc
      have hprod : τ ≤ ((⌊price / τ⌋ - k : ℤ) : ℚ) * τ :=
        le_mul_of_one_le_left hτ.le hmq
      linarith [hk.2]
  · rintro (hc | hc)
    · refine ⟨⌊price / τ⌋, ?_⟩
      rw [abs_le]
      constructor <;> linarith [hdec]
    · refine ⟨⌊price / τ⌋ + 1, ?_⟩
      rw [abs_le]
      push_cast
      constructor <;> linarith [hdec]

/-- C3: for every price and every enumerated tick size with value τ,
`ValidatePrice` rejects prices outside (0,1]; accepts any in-range price
within τ/100 of an integer multiple of τ; and rejects any in-range price
farther than τ/100 from every multiple of τ. -/
theorem C3_ValidatePrice_spec (ts : String) (τ : ℚ)
    (hts : parseTickSize ts = some τ) (price : ℚ) :
    ((price ≤ 0 ∨ 1 < price) →
      ValidatePrice price ts = .error "price must be between 0 and 1") ∧
    (0 < price → price ≤ 1 →
      (∃ k : ℤ, |price - (k : ℚ) * τ| ≤ τ / 100) →
      ValidatePrice price ts = .ok ()) ∧
    (0 < price → price ≤ 1 →
      (∀ k : ℤ, τ / 100 < |price - (k : ℚ) * τ|) →
      ValidatePrice price ts =
        .error ("price must be a multiple of tick size " ++ ts)) := by
  have hτ : 0 < τ := parseTickSize_pos ts τ hts
  have hε : (0 : ℚ) ≤ τ / 100 := by positivity
  have hετ : τ / 100 < τ := by linarith
  refine ⟨?_, ?_, ?_⟩
  · intro hcond
    rw [ValidatePrice, if_pos hcond]
  · intro hp1 hp2 hnear
    have hcond : ¬(price ≤ 0 ∨ 1 < price) := by
      push_neg
      exact ⟨hp1, hp2⟩
    rw [ValidatePrice, if_neg hcond, hts]
    show (if τ / 100 < goMod price τ ∧ τ / 100 < τ - goMod price τ then
        Except.error ("price must be a multiple of tick size " ++ ts)
      else Except.ok ()) = Except.ok ()
    have hd := (near_multiple price τ (τ / 100) hp1 hτ hε hετ).mp hnear
    rw [if_neg]
    rcases hd with hd | hd
    · exact fun hcontra => absurd hcontra.1 (not_lt.mpr hd)
    · exact fun hcontra => absurd hcontra.2 (not_lt.mpr (by linarith))
  · intro hp1 hp2 hfar
    have hcond : ¬(price ≤ 0 ∨ 1 < price) := by
      push_neg
      exact ⟨hp1, hp2⟩
    obtain ⟨hr0, hrτ⟩ := goMod_bounds price τ hp1 hτ
    have hdec := goMod_decomp price τ hp1 hτ
    have he1 : price - ((⌊price / τ⌋ : ℤ) : ℚ) * τ = goMod price τ := by
      linear_combination hdec
    have hr1 : τ / 100 < goMod price τ := by
      have h := hfar ⌊price / τ⌋
      rw [he1, abs_of_nonneg hr0] at h
      exact h
    have he2 : price - ((⌊price / τ⌋ + 1 : ℤ) : ℚ) * τ = goMod price τ - τ := by
      push_cast
      linear_combination hdec
    have hr2 : τ / 100 < τ - goMod price τ := by
      have h := hfar (⌊price / τ⌋ + 1)
      rw [he2, abs_of_nonpos (by linarith)] at h
      linarith
    rw [ValidatePrice, if_neg hcond, hts]
    show (if τ / 100 < goMod price τ ∧ τ / 100 < τ - goMod price τ then
        Except.error ("price must be a multiple of tick size " ++ ts)
      else Except.ok ()) =
      Except.error ("price must be a multiple of tick size " ++ ts)
    rw [if_pos ⟨hr1, hr2⟩]

/-- Witness for C3: price 1 with tick size "0.01" is in range and aligned
(multiple k = 100), so validation succeeds. -/
theorem C3_ValidatePrice_spec_witness :
    ValidatePrice 1 TickSize001 = .ok () :=
  (C3_ValidatePrice_spec TickSize001 (1 / 100) rfl 1).2.1 one_pos (le_refl 1)
    ⟨100, by norm_num⟩

lemma bind_ok_iff {α β : Type} (x : Except String α) (f : α → Except String β)
    (b : β) : x >>= f = .ok b ↔ ∃ a, x = .ok a ∧ f a = .ok b := by
  cases x <;> simp [Bind.bind, Except.bind]

lemma wrapErr_ok_iff {α : Type} (msg : String) (x : Except String α) (a : α) :
    wrapErr msg x = .ok a ↔ x = .ok a := by
  cases x <;> simp [wrapErr]

lemma flatten_two_length (l : List ℕ) :
    ((l.map (fun b => [hexDigit (b / 16), hexDigit (b % 16)])).flatten).length =
      2 * l.length := by
  induction l with
  | nil => rfl
  | cons a as ih =>
    rw [List.map_cons, List.flatten_cons, List.length_append, ih,
      List.length_cons]
    simp only [List.length_cons, List.length_nil]
    omega

lemma hexEncodeBytes_length (bs : List ℕ) :
    (hexEncodeBytes bs).length = 2 + 2 * bs.length := by
  rw [hexEncodeBytes, String.length_append]
  have h2 : ("0x" : String).length = 2 := rfl
  have hmk : (String.mk ((bs.map
      (fun b => [hexDigit (b / 16), hexDigit (b % 16)])).flatten)).length =
      ((bs.map (fun b => [hexDigit (b / 16), hexDigit (b % 16)])).flatten).length :=
    rfl
  rw [h2, hmk, flatten_two_length]

/-- C8: whenever `BuildClobEip712Signature` or `BuildOrderSignature`
returns a signature, it is the hex encoding of the ECDSA signature over
`keccak(0x19 0x01 || domainSeparatorHash || messageHash)` with the
recovery byte normalized by `adjustV`; and `adjustV` on a 65-byte
signature whose recovery byte is 0 or 1 adds 27 to that byte, leaving the
final byte in 27 or 28 and the hex output encoding exactly 65 bytes. -/
theorem C8_signature_normalization {K : Type}
    (hexDecode : String → Except String (List ℕ))
    (toECDSA : List ℕ → Except String K)
    (hashStructDomain hashStructMessage : Except String (List ℕ))
    (keccak : List ℕ → List ℕ)
    (sign : K → List ℕ → Except String (List ℕ))
    (privateKey : String) :
    (∀ s, BuildClobEip712Signature hexDecode toECDSA hashStructDomain
        hashStructMessage keccak sign privateKey = .ok s →
      ∃ (pkBytes : List ℕ) (key : K) (domainSeparator messageHash sig : List ℕ),
        hexDecode privateKey = .ok pkBytes ∧
        toECDSA pkBytes = .ok key ∧
        hashStructDomain = .ok domainSeparator ∧
        hashStructMessage = .ok messageHash ∧
        sign key (keccak ([0x19, 0x01] ++ domainSeparator ++ messageHash)) =
          .ok sig ∧
        s = hexEncodeBytes (adjustV sig)) ∧
    (∀ s, BuildOrderSignature hexDecode toECDSA hashStructDomain
        hashStructMessage keccak sign privateKey = .ok s →
      ∃ (pkBytes : List ℕ) (key : K) (domainSeparator messageHash sig : List ℕ),
        hexDecode privateKey = .ok pkBytes ∧
        toECDSA pkBytes = .ok key ∧
        hashStructDomain = .ok domainSeparator ∧
        hashStructMessage = .ok messageHash ∧
        sign key (keccak ([0x19, 0x01] ++ domainSeparator ++ messageHash)) =
          .ok sig ∧
        s = hexEncodeBytes (adjustV sig)) ∧
    (∀ (sig : List ℕ) (v : ℕ), sig.length = 65 → sig.get? 64 = some v →
      (v = 0 ∨ v = 1) →
      adjustV sig = sig.set 64 (v + 27) ∧
      (adjustV sig).get? 64 = some (v + 27) ∧
      (adjustV sig).length = 65 ∧
      (v + 27 = 27 ∨ v + 27 = 28) ∧
      (hexEncodeBytes (adjustV sig)).length = 132) := by
  refine ⟨?_, ?_, ?_⟩
  · intro s h
    rw [BuildClobEip712Signature] at h
    obtain ⟨pkBytes, h1, h⟩ := (bind_ok_iff _ _ _).mp h
    obtain ⟨key, h2, h⟩ := (bind_ok_iff _ _ _).mp h
    obtain ⟨domainSeparator, h3, h⟩ := (bind_ok_iff _ _ _).mp h
    obtain ⟨messageHash, h4, h⟩ := (bind_ok_iff _ _ _).mp h
    obtain ⟨sig, h5, h⟩ := (bind_ok_iff _ _ _).mp h
    rw [wrapErr_ok_iff] at h1 h2 h3 h4 h5
    refine ⟨pkBytes, key, domainSeparator, messageHash, sig, h1, h2, h3, h4,
      h5, ?_⟩
    exact (Except.ok.injEq _ _ ▸ h).symm
  · intro s h
    rw [BuildOrderSignature] at h
    obtain ⟨pkBytes, h1, h⟩ := (bind_ok_iff _ _ _).mp h
    obtain ⟨key, h2, h⟩ := (bind_ok_iff _ _ _).mp h
    obtain ⟨domainSeparator, h3, h⟩ := (bind_ok_iff _ _ _).mp h
    obtain ⟨messageHash, h4, h⟩ := (bind_ok_iff _ _ _).mp h
    obtain ⟨sig, h5, h⟩ := (bind_ok_iff _ _ _).mp h
    rw [wrapErr_ok_iff] at h1 h2 h3 h4 h5
    refine ⟨pkBytes, key, domainSeparator, messageHash, sig, h1, h2, h3, h4,
      h5, ?_⟩
    exact (Except.ok.injEq _ _ ▸ h).symm
  · intro sig v hlen hget hv
    have hvlt : v < 27 := by omega
    have hset : adjustV sig = sig.set 64 (v + 27) := by
      rw [adjustV, hget]
      exact if_pos hvlt
    have h64 : 64 < sig.length := by omega
    have hget2 : (adjustV sig).get? 64 = some (v + 27) := by
      rw [hset, List.get?_eq_getElem?]
      exact List.getElem?_set_eq_of_lt _ h64
    have hlen2 : (adjustV sig).length = 65 := by
      rw [hset, List.length_set, hlen]
    refine ⟨hset, hget2, hlen2, by omega, ?_⟩
    rw [hexEncodeBytes_length, hlen2]

/-- Witness for C8: a 65-byte signature of 64 zero bytes and recovery id 1
is normalized to final byte 28, and its hex encoding has 132 characters. -/
theorem C8_signature_normalization_witness :
    adjustV (List.replicate 64 0 ++ [1]) =
      (List.replicate 64 0 ++ [1]).set 64 (1 + 27) ∧
    (adjustV (List.replicate 64 0 ++ [1])).get? 64 = some (1 + 27) ∧
    (adjustV (List.replicate 64 0 ++ [1])).length = 65 ∧
    ((1 : ℕ) + 27 = 27 ∨ (1 : ℕ) + 27 = 28) ∧
    (hexEncodeBytes (adjustV (List.replicate 64 0 ++ [1]))).length = 132 :=
  (C8_signature_normalization (fun _ => .ok []) (fun _ => Except.ok ())
    (.ok []) (.ok []) id (fun _ _ => .ok []) "0xabc").2.2
    (List.replicate 64 0 ++ [1]) 1 (by simp) (by decide) (Or.inr rfl)

lemma wrap_bind_isOk {α β : Type} (msg : String) (x : Except String α)
    (f : α → Except String β) (hx : ∃ a, x = .ok a)
    (hf : ∀ a, ∃ b, f a = .ok b) : ∃ b, wrapErr msg x >>= f = .ok b := by
  obtain ⟨a, ha⟩ := hx
  obtain ⟨b, hb⟩ := hf a
  refine ⟨b, ?_⟩
  rw [ha]
  exact hb

/-- C10: `BuildOrder` enforces only the range condition 0 < price ≤ 1 (via
`calculateOrderAmounts`) and performs no tick-alignment check — for every
in-range price it succeeds whenever the external steps succeed, with no
condition on the tick size; tick alignment is checked only by
`ClobClient.CreateOrder`, which runs `ValidatePrice` first, propagates its
error, and otherwise delegates to `BuildOrder` unchanged. -/
theorem C10_buildOrder_no_tick_check
    (getAddress : Except String String) (genSalt : Except String ℤ)
    (signOrder : SignedOrder → Except String String)
    (funderAddress : Option String) (signatureType : ℤ)
    (userOrder : UserOrder) (options : CreateOrderOptions)
    (ha : ∃ a, getAddress = .ok a)
    (hs : ∃ n, genSalt = .ok n)
    (hg : ∀ o, ∃ s, signOrder o = .ok s)
    (hp1 : 0 < userOrder.price) (hp2 : userOrder.price ≤ 1) :
    (∃ o, BuildOrder getAddress genSalt signOrder funderAddress signatureType
        userOrder options = .ok o) ∧
    (∀ e, ValidatePrice userOrder.price options.tickSize = .error e →
      CreateOrder getAddress genSalt signOrder funderAddress signatureType
        userOrder options = .error e) ∧
    (∀ u, ValidatePrice userOrder.price options.tickSize = .ok u →
      CreateOrder getAddress genSalt signOrder funderAddress signatureType
        userOrder options =
      BuildOrder getAddress genSalt signOrder funderAddress signatureType
        userOrder options) := by
  have hcond : ¬(userOrder.price ≤ 0 ∨ 1 < userOrder.price) := by
    push_neg
    exact ⟨hp1, hp2⟩
  have hamt : ∃ pr, calculateOrderAmounts userOrder.price userOrder.size
      userOrder.side (getRoundConfig options.tickSize) = .ok pr := by
    unfold calculateOrderAmounts
    rw [if_neg hcond]
    by_cases hside : userOrder.side = SideBuy
    · exact ⟨_, by rw [if_pos hside]⟩
    · exact ⟨_, by rw [if_neg hside]⟩
  refine ⟨?_, ?_, ?_⟩
  · rw [BuildOrder]
    apply wrap_bind_isOk _ _ _ ha
    intro address
    apply wrap_bind_isOk _ _ _ hamt
    intro amounts
    apply wrap_bind_isOk _ _ _ hs
    intro salt
    apply wrap_bind_isOk _ _ _ (hg _)
    intro sig
    exact ⟨_, rfl⟩
  · intro e he
    rw [CreateOrder, he]
  · intro u hu
    rw [CreateOrder, hu]

lemma validatePrice_half_cent :
    ValidatePrice (1 / 200) TickSize001 =
      .error ("price must be a multiple of tick size " ++ TickSize001) := by
  have hcond : ¬((1 : ℚ) / 200 ≤ 0 ∨ 1 < (1 : ℚ) / 200) := by norm_num
  rw [ValidatePrice, if_neg hcond,
    show parseTickSize TickSize001 = some (1 / 100) from rfl]
  show (if (1 : ℚ) / 100 / 100 < goMod (1 / 200) (1 / 100) ∧
      (1 : ℚ) / 100 / 100 < 1 / 100 - goMod (1 / 200) (1 / 100) then
      Except.error ("price must be a multiple of tick size " ++ TickSize001)
    else Except.ok ()) =
    Except.error ("price must be a multiple of tick size " ++ TickSize001)
  have hm : goMod ((1 : ℚ) / 200) (1 / 100) = 1 / 200 := by
    rw [goMod, ratTrunc, if_pos (by norm_num : (0 : ℚ) ≤ 1 / 200 / (1 / 100)),
      show ((1 : ℚ) / 200) / (1 / 100) = 1 / 2 by norm_num, floor_half]
    norm_num
  rw [hm, if_pos (by norm_num)]

/-- Witness for C10: price 0.005 is not aligned to tick size 0.01, yet
`BuildOrder` succeeds on it; `CreateOrder` on the same input fails with the
tick-alignment error from `ValidatePrice`. -/
theorem C10_buildOrder_no_tick_check_witness :
    (∃ o, BuildOrder (.ok "0xsigner") (.ok 7) (fun _ => .ok "sig") none 0
      ⟨"123", 1 / 200, 10, SideBuy, none, none, none, none⟩ ⟨TickSize001⟩ =
      .ok o) ∧
    CreateOrder (.ok "0xsigner") (.ok 7) (fun _ => .ok "sig") none 0
      ⟨"123", 1 / 200, 10, SideBuy, none, none, none, none⟩ ⟨TickSize001⟩ =
      .error ("price must be a multiple of tick size " ++ TickSize001) := by
  have h := C10_buildOrder_no_tick_check (.ok "0xsigner") (.ok 7)
    (fun _ => .ok "sig") none 0
    ⟨"123", 1 / 200, 10, SideBuy, none, none, none, none⟩ ⟨TickSize001⟩
    ⟨"0xsigner", rfl⟩ ⟨7, rfl⟩ (fun _ => ⟨"sig", rfl⟩)
    (by norm_num) (by norm_num)
  exact ⟨h.1, h.2.1 _ validatePrice_half_cent⟩
